import Mathlib

/-!
Shallow embedding of the libinstrument tracing core (repository
camelspotter/libinstrument) and proofs about its specification claims.

Conventions of the embedding:
  - `mem_addr_t` (64-bit unsigned on x86_64) and `pthread_t` are modelled as
    `Nat`; subtraction of addresses, which is modular in C, is made explicit
    via `usub64`.
  - `i32` loop counters that can wrap through `u32` arithmetic (for example
    `call_depth() - 1` where `call_depth()` returns `u32`) are modelled with
    `i32ofU32`, which reproduces the two's-complement reinterpretation.
  - Nullable `const i8*` strings become `Option String`.
  - `std::uncaught_exception()` is runtime state external to the data model;
    the functions that consult it take it as an explicit `Bool` argument.
  - Heap allocation failure (`std::bad_alloc`) and C++ exceptions raised by
    library code are modelled with `Option`/`Except` error values.
  - Each C `while`/`for` loop is translated to structural recursion on a
    natural number that counts exactly the remaining loop iterations, so all
    definitions reduce by kernel computation.
-/

namespace Instrument

/-! Thread status constants, from include/config/config_definitions.hpp. -/

/-- Constant THREAD_INIT (0x01): thread initialized but not started. -/
def THREAD_INIT : Nat := 0x01

/-- Constant THREAD_PREENTRY (0x02): thread executing code before main. -/
def THREAD_PREENTRY : Nat := 0x02

/-- Constant THREAD_START (0x04): thread started. -/
def THREAD_START : Nat := 0x04

/-- Constant THREAD_EXIT (0x08): thread finalized and exited. -/
def THREAD_EXIT : Nat := 0x08

/-- Macro is_thread_started from include/config/config_macros.hpp. -/
def is_thread_started (x : Nat) : Bool := x == THREAD_START

/-- Macro is_thread_finished from include/config/config_macros.hpp. -/
def is_thread_finished (x : Nat) : Bool := x == THREAD_EXIT

/-- Constant EXIT_FAILURE of stdlib.h on Linux. -/
def EXIT_FAILURE : Nat := 1

/-- Modulus of u32 arithmetic. -/
def u32Mod : Nat := 4294967296

/-- Modulus of u64 (mem_addr_t) arithmetic. -/
def u64Mod : Nat := 18446744073709551616

/-- Reinterpretation of a `u32` value as an `i32`, as gcc performs it (modular,
two's complement). Used where the source assigns unsigned expressions to
`i32` loop counters. -/
def i32ofU32 (n : Nat) : Int :=
  if n % u32Mod < 2147483648 then ((n % u32Mod : Nat) : Int)
  else ((n % u32Mod : Nat) : Int) - (u32Mod : Int)

/-- Modular u64 subtraction `a - b`, as in `cur->site() - base` on mem_addr_t. -/
def usub64 (a b : Nat) : Nat := (a % u64Mod + (u64Mod - b % u64Mod)) % u64Mod

/-! The data model: symbol, call, symtab (symbol table), thread, process. -/

/-- Class instrument::symbol (include/symbol.hpp): an address paired with a
nullable name. -/
structure symbol where
  m_addr : Nat
  m_name : Option String
  deriving DecidableEq, Repr

/-- Class instrument::call (include/call.hpp): one simulated stack frame; the
callee address, the call site address and a nullable cached name. -/
structure call where
  m_addr : Nat
  m_site : Nat
  m_name : Option String
  deriving DecidableEq, Repr

/-- Method symbol::set_name / call inherits it: replace the stored name. -/
def call.set_name (c : call) (nm : Option String) : call :=
  { c with m_name := nm }

/-- Method stack::pop (include/stack.hpp): remove the top node; on an empty
stack the guard `m_size != 0` makes it a silent no-op. The stack is modelled
as a `List call` whose head is the top (`m_top`). -/
def stackPop : List call → List call
  | [] => []
  | _ :: rest => rest

/-- Class instrument::thread (include/thread.hpp): handle, drift counter
`m_lag` (i32; its virtually unreachable overflow at 2^31 is not modelled),
nullable name, simulated call stack (head = top) and status. -/
structure thread where
  m_handle : Nat
  m_lag : Int
  m_name : Option String
  m_stack : List call
  m_status : Nat
  deriving DecidableEq, Repr

/-- Constructor thread::thread(const i8 *nm = NULL) with nm = NULL, as invoked
by process::current_thread: the handle is pthread_self() (passed here as
`self`), lag 0, no name, empty stack, status THREAD_INIT. -/
def thread.mkAnon (self : Nat) : thread :=
  { m_handle := self, m_lag := 0, m_name := none, m_stack := [], m_status := THREAD_INIT }

/-- Constructor thread::thread(pthread_t id, const i8 *nm). -/
def thread.mkNamed (id : Nat) (nm : String) : thread :=
  { m_handle := id, m_lag := 0, m_name := some nm, m_stack := [], m_status := THREAD_INIT }

/-- Method thread::call_depth: the simulated stack size. -/
def thread.call_depth (t : thread) : Nat := t.m_stack.length

/-- Method thread::backtrace(u32 i) = m_stack->peek(i): the i-th frame counted
from the top; `none` models the instrument::exception thrown by
stack::node_at when the offset is out of bounds. -/
def thread.backtrace (t : thread) (i : Nat) : Option call := t.m_stack.get? i

/-- Method thread::is(pthread_t id): pthread_equal on the handle. -/
def thread.is (t : thread) (id : Nat) : Bool := t.m_handle == id

/-- Method thread::called (src/thread.cpp:356): if an uncaught exception is
propagating, only decrement the lag; otherwise push a new call frame and set
the status to THREAD_START. -/
def thread.called (uncaught : Bool) (t : thread) (addr site : Nat) (nm : Option String) : thread :=
  if uncaught then
    { t with m_lag := t.m_lag - 1 }
  else
    { t with
        m_stack := { m_addr := addr, m_site := site, m_name := nm } :: t.m_stack,
        m_status := THREAD_START }

/-- Method thread::returned (src/thread.cpp:501): if an uncaught exception is
propagating, increment the lag; otherwise pop the top frame. No other field
is touched. -/
def thread.returned (uncaught : Bool) (t : thread) : thread :=
  if uncaught then
    { t with m_lag := t.m_lag + 1 }
  else
    { t with m_stack := stackPop t.m_stack }

/-- Loop body of thread::unwind: `while (m_lag > 0) { m_stack->pop(); m_lag--; }`.
The fuel argument counts the remaining iterations; thread.unwind passes
`m_lag.toNat`, which is exactly the number of iterations the C loop performs. -/
def unwindLoop : Nat → thread → thread
  | 0, t => t
  | n + 1, t => unwindLoop n { t with m_stack := stackPop t.m_stack, m_lag := t.m_lag - 1 }

/-- Method thread::unwind (src/thread.cpp:524). -/
def thread.unwind (t : thread) : thread := unwindLoop t.m_lag.toNat t

/-- Method thread::cacheName models `cur->set_name(nm)` performed by the trace
rendering loop on the frame at offset `i` (the frame `cur` itself). -/
def thread.cacheName (t : thread) (i : Nat) (cur : call) (nm : String) : thread :=
  { t with m_stack := t.m_stack.set i (cur.set_name (some nm)) }

/-- Class instrument::symtab (include/symtab.hpp): module path, load base and
the loaded function symbols in backend order. -/
structure symtab where
  m_path : String
  m_base : Nat
  m_table : List symbol
  deriving DecidableEq, Repr

/-- Method symtab::lookup(mem_addr_t): linear scan, first exact address match. -/
def symtab.lookup (st : symtab) (addr : Nat) : Option symbol :=
  st.m_table.find? (fun s => s.m_addr == addr)

/-- Method symtab::addr2name: the name of the symbol found by lookup, NULL when
the address is unresolved (or the symbol has a NULL name). -/
def symtab.addr2name (st : symtab) (addr : Nat) : Option String :=
  (st.lookup addr).bind (fun s => s.m_name)

/-- Method symtab::exists(mem_addr_t): lookup(addr) != NULL. -/
def symtab.existsAddr (st : symtab) (addr : Nat) : Bool :=
  (st.lookup addr).isSome

/-- Method symtab::size: number of loaded symbols. -/
def symtab.size (st : symtab) : Nat := st.m_table.length

/-- Class instrument::process (include/process.hpp): pid, module symbol tables
and the registered threads. The thread list is an unordered instrument::list
(constructed with default arguments, so m_ordered = false). -/
structure process where
  m_pid : Nat
  m_symtabs : List symtab
  m_threads : List thread
  deriving DecidableEq, Repr

/-- Constructor process::process(): getpid() plus empty module and thread lists. -/
def process.mkEmpty (pid : Nat) : process :=
  { m_pid := pid, m_symtabs := [], m_threads := [] }

/-- Loop of process::lookup (src/process.cpp:304): scan the symbol tables in
insertion order, return the first resolved name. -/
def lookupLoop : List symtab → Nat → Option String
  | [], _ => none
  | st :: rest, addr =>
    match st.addr2name addr with
    | some nm => some nm
    | none => lookupLoop rest addr

/-- Method process::lookup(mem_addr_t). -/
def process.lookup (p : process) (addr : Nat) : Option String :=
  lookupLoop p.m_symtabs addr

/-- Loop of the inverse lookup (implemented as process::ilookup in
src/process.cpp:277, declared as process::inverse_lookup in process.hpp):
find the module whose table contains the address; the second component is the
out-parameter `base`, left 0 when no module matches. -/
def invLookupLoop : List symtab → Nat → Option String × Nat
  | [], _ => (none, 0)
  | st :: rest, addr =>
    if st.existsAddr addr then (some st.m_path, st.m_base) else invLookupLoop rest addr

/-- Method process::inverse_lookup(mem_addr_t, mem_addr_t&). -/
def process.inverse_lookup (p : process) (addr : Nat) : Option String × Nat :=
  invLookupLoop p.m_symtabs addr

/-- Method process::module_count. -/
def process.module_count (p : process) : Nat := p.m_symtabs.length

/-- Method process::symbol_count: sum of the symbol table sizes. -/
def process.symbol_count (p : process) : Nat :=
  (p.m_symtabs.map symtab.size).sum

/-- Method process::get_thread(pthread_t) (src/process.cpp:456): first thread
whose handle matches, NULL when none does. -/
def process.get_thread (p : process) (id : Nat) : Option thread :=
  p.m_threads.find? (fun t => t.is id)

/-- Method process::thread_count. -/
def process.thread_count (p : process) : Nat := p.m_threads.length

/-! Registry mutation: thread registration, lookup-or-create, removal. -/

/-- Method list::detach(u32) for an unordered list followed by deletion, as
list::remove performs it (include/list.hpp:414): when the removed offset is
the last one, just drop it, otherwise move the last item into the gap and
shrink. Callers guarantee `i < l.length`; on other inputs the source throws,
modelled here by returning the list unchanged. -/
def removeUnordered (l : List Instrument.thread) (i : Nat) : List Instrument.thread :=
  if i < l.length then
    if i + 1 = l.length then l.dropLast
    else
      match l.getLast? with
      | some last => (l.set i last).dropLast
      | none => l
  else l

/-- Thread-registry effect of process::current_thread (src/process.cpp:423):
look for the thread whose handle is the caller's pthread_self() (`self`);
when none exists, construct an anonymous thread and add it to the list. -/
def process.current_thread_reg (self : Nat) (p : process) : process :=
  if p.m_threads.any (fun t => t.m_handle == self) then p
  else { p with m_threads := p.m_threads ++ [thread.mkAnon self] }

/-- Result of process::current_thread: the registered (or newly created)
thread object tracking the current thread. -/
def process.current_thread (self : Nat) (p : process) : thread :=
  match p.m_threads.find? (fun t => t.m_handle == self) with
  | some t => t
  | none => thread.mkAnon self

/-- Error kinds raised by the registry API. -/
inductive RegErr where
  | alreadyRegistered
  deriving DecidableEq, Repr

/-- Modelled from the spec: process::register_thread is declared in
include/process.hpp (line 104) and called from thread::attach_to_process, but
no definition exists under src in this revision. The spec says: used when the
core itself forks a named thread; fails with AlreadyRegistered if the handle
is a duplicate, otherwise the thread is added to the registry. -/
def process.register_thread (t : thread) (p : process) : Except RegErr process :=
  if p.m_threads.any (fun x => x.m_handle == t.m_handle) then
    Except.error RegErr.alreadyRegistered
  else
    Except.ok { p with m_threads := p.m_threads ++ [t] }

/-- Method process::cleanup_thread (src/process.cpp:368): remove the first
thread whose handle matches, then stop. -/
def process.cleanup_thread (id : Nat) (p : process) : process :=
  match p.m_threads.findIdx? (fun t => t.is id) with
  | some i => { p with m_threads := removeUnordered p.m_threads i }
  | none => p

/-- Loop of process::cleanup_zombie_threads (src/process.cpp:390): scan the
list; remove (and re-examine the swapped-in slot of) every thread whose
call depth is zero and whose status is started or finished. The fuel counts
`l.length - i`, an upper bound on the remaining iterations. -/
def zombieLoop : Nat → List Instrument.thread → Nat → List Instrument.thread
  | 0, l, _ => l
  | fuel + 1, l, i =>
    if h : i < l.length then
      let thr := l.get ⟨i, h⟩
      if 0 < thr.call_depth then zombieLoop fuel l (i + 1)
      else if is_thread_started thr.m_status || is_thread_finished thr.m_status then
        zombieLoop fuel (removeUnordered l i) i
      else zombieLoop fuel l (i + 1)
    else l

/-- Method process::cleanup_zombie_threads. -/
def process.cleanup_zombie_threads (p : process) : process :=
  { p with m_threads := zombieLoop p.m_threads.length p.m_threads 0 }

/-- Thread-registry effect of process::fork_thread (src/process.cpp:128): a
named thread object for the id returned by pthread_create is added to the
list, without a duplicate check. -/
def process.fork_thread (id : Nat) (nm : String) (p : process) : process :=
  { p with m_threads := p.m_threads ++ [thread.mkNamed id nm] }

/-- Method process::add_module (src/process.cpp:249), with the already loaded
symbol table passed in (symtab construction itself reads the object file
through libbfd, outside this model). -/
def process.add_module (st : symtab) (p : process) : process :=
  { p with m_symtabs := p.m_symtabs ++ [st] }

/-- Reachable registry states: those produced from a fresh process object by
the thread-handling API. The fork_thread step carries the guarantee provided
by pthread_create, that the returned id is the handle of a newly created,
still live thread, hence distinct from every registered live handle. -/
inductive ReachP : process → Prop where
  | init (pid : Nat) : ReachP (process.mkEmpty pid)
  | addMod (st : symtab) {p : process} : ReachP p → ReachP (p.add_module st)
  | cur (self : Nat) {p : process} : ReachP p → ReachP (p.current_thread_reg self)
  | reg {p q : process} {t : thread} : ReachP p →
      p.register_thread t = Except.ok q → ReachP q
  | cleanup (id : Nat) {p : process} : ReachP p → ReachP (p.cleanup_thread id)
  | zombies {p : process} : ReachP p → ReachP p.cleanup_zombie_threads
  | forked (id : Nat) (nm : String) {p : process} : ReachP p →
      (∀ t ∈ p.m_threads, t.m_handle ≠ id) → ReachP (p.fork_thread id nm)

/-! Trace rendering (src/tracer.cpp). The destination string is modelled as
the ordered list of chunks appended to it; each `dst.append(...)` call of the
source contributes one chunk. The external addr2line helper (a pipe to the
addr2line program) is abstracted as a resolver function `res` returning the
first line of its output, or `none` for the internally caught failure path. -/

/-- Output chunk appended to the destination string by trace rendering. -/
inductive Chunk where
  | header (nm : String) (handle : Nat)
  | atName (nm : String)
  | atUnresolved
  | loc (s : String)
  | crlf
  | closeBrace
  deriving DecidableEq, Repr

/-- Error escaping from trace rendering. -/
inductive TErr where
  | stackBounds
  deriving DecidableEq, Repr

/-- Method tracer::addr2line (src/tracer.cpp:200): NO-OP for a NULL path;
otherwise run the resolver and append the fenced result unless it failed or
returned the placeholder. -/
def addr2line (res : String → Nat → Option String) (path : Option String) (addr : Nat) :
    List Chunk :=
  match path with
  | none => []
  | some p =>
    match res p addr with
    | none => []
    | some buf => if buf = "??:0" then [] else [Chunk.loc buf]

/-- Result of the frame rendering loop: the (possibly name-cache mutated)
thread, the chunks appended, the value of the lag at each frame rendering
point, and the error that aborted the loop, if any. -/
structure FrameLoopOut where
  thr : thread
  chunks : List Chunk
  lags : List Int
  err : Option TErr
  deriving DecidableEq, Repr

/-- The shared frame loop body of both tracer::trace overloads
(src/tracer.cpp:638 and src/tracer.cpp:716): `for (i32 i = START; i >= 0; i--)`
with identical bodies. The recursion argument `n + 1` is the number of
remaining iterations; the current loop index is `n`, so indices are visited
in the order START, START-1, ..., 0. Each iteration peeks frame `i`, resolves
and caches its name, appends the name chunk (or the UNRESOLVED chunk when the
WITH_UNRESOLVED feature `wu` is on), appends the addr2line information
obtained through the caller frame `i + 1` when one exists, and appends CRLF.
An out-of-bounds peek raises, aborting the loop with the chunks emitted so
far kept in the destination. -/
def traceFramesGo (res : String → Nat → Option String) (wu : Bool) (p : process) :
    Nat → thread → FrameLoopOut
  | 0, t => { thr := t, chunks := [], lags := [], err := none }
  | n + 1, t =>
    match t.backtrace n with
    | none => { thr := t, chunks := [], lags := [], err := some TErr.stackBounds }
    | some cur =>
      let nmOpt : Option String :=
        match cur.m_name with
        | some s => some s
        | none => p.lookup cur.m_addr
      let step1 : thread × List Chunk :=
        match nmOpt with
        | some nm => (t.cacheName n cur nm, [Chunk.atName nm])
        | none => (t, if wu then [Chunk.atUnresolved] else [])
      let t1 := step1.1
      let prev := n + 1
      if prev < t1.call_depth then
        match t1.backtrace prev with
        | none =>
          { thr := t1, chunks := step1.2, lags := [t.m_lag], err := some TErr.stackBounds }
        | some caller =>
          let pb := p.inverse_lookup caller.m_addr
          let locChunks := addr2line res pb.1 (usub64 cur.m_site pb.2)
          let r := traceFramesGo res wu p n t1
          { thr := r.thr,
            chunks := step1.2 ++ locChunks ++ [Chunk.crlf] ++ r.chunks,
            lags := t.m_lag :: r.lags,
            err := r.err }
      else
        let r := traceFramesGo res wu p n t1
        { thr := r.thr,
          chunks := step1.2 ++ [Chunk.crlf] ++ r.chunks,
          lags := t.m_lag :: r.lags,
          err := r.err }

/-- Frame loop entry: the C loop starts at the signed index `i0` and runs
while `i >= 0`, so a negative start skips the loop and otherwise exactly
`i0 + 1` iterations run. -/
def traceFrames (res : String → Nat → Option String) (wu : Bool) (p : process)
    (i0 : Int) (t : thread) : FrameLoopOut :=
  if i0 < 0 then { thr := t, chunks := [], lags := [], err := none }
  else traceFramesGo res wu p (i0.toNat + 1) t

/-- The thread name used in the header: "anonymous" for a NULL name. -/
def nameOrAnon : Option String → String
  | some s => s
  | none => "anonymous"

/-- Shared rendering of one thread: header chunk, frame loop from the given
start index, closing brace chunk; when the loop raises, the error propagates
and the closing chunk is never appended (the header already was). -/
def renderThread (res : String → Nat → Option String) (wu : Bool) (p : process)
    (i0 : Int) (t : thread) : FrameLoopOut :=
  let hdr := Chunk.header (nameOrAnon t.m_name) t.m_handle
  let r := traceFrames res wu p i0 t
  match r.err with
  | none => { r with chunks := hdr :: r.chunks ++ [Chunk.closeBrace] }
  | some _ => { r with chunks := hdr :: r.chunks }

/-- Method tracer::trace(string&) (src/tracer.cpp:623), the current-thread
variant, acting on the current thread object: the frame loop starts at index
`m_lag`; after the loop (or in the catch-all handler, through
tracer::unwind) the thread's simulated stack is unwound. -/
def traceCurrent (res : String → Nat → Option String) (wu : Bool) (p : process)
    (t : thread) : FrameLoopOut :=
  let r := renderThread res wu p t.m_lag t
  { r with thr := r.thr.unwind }

/-- Method tracer::trace(string&, pthread_t) (src/tracer.cpp:697) acting on an
already found thread object: the frame loop starts at `call_depth() - 1`,
computed in u32 and stored into an i32. No unwinding. -/
def traceOfThread (res : String → Nat → Option String) (wu : Bool) (p : process)
    (t : thread) : FrameLoopOut :=
  renderThread res wu p (i32ofU32 ((t.call_depth + u32Mod - 1) % u32Mod)) t

/-- Method tracer::trace(string&, pthread_t) (src/tracer.cpp:697) from the
top: when no thread with the given id is registered the method returns at
once, leaving the destination untouched and raising nothing. -/
def traceById (res : String → Nat → Option String) (wu : Bool) (p : process)
    (id : Nat) : Option thread × List Chunk × Option TErr :=
  match p.get_thread id with
  | none => (none, [], none)
  | some t =>
    let r := traceOfThread res wu p t
    (some r.thr, r.chunks, r.err)

/-- Projection of the frame name lines out of an output chunk sequence. -/
def atNames (cs : List Chunk) : List String :=
  cs.filterMap (fun c => match c with | Chunk.atName s => some s | _ => none)

/-- Resolution of one frame's displayed name, as the rendering loop computes
it: the cached name when present, otherwise a process-wide address lookup. -/
def resolveName (p : process) (c : call) : Option String :=
  match c.m_name with
  | some s => some s
  | none => p.lookup c.m_addr

/-! Plugin dispatch (src/tracer.cpp:1007 and src/tracer.cpp:1042). A plugin is
modelled by whether its two callbacks raise when invoked; the dispatch
functions return the observable event sequence: each callback invocation and
each error report to the error sink. -/

/-- Observable behaviour of one registered plugin's callbacks. -/
structure pluginM where
  beginRaises : Bool
  endRaises : Bool
  deriving DecidableEq, Repr

/-- Observable events of plugin dispatch. -/
inductive PluginEvent where
  | enterCalled (i : Nat)
  | exitCalled (i : Nat)
  | errReported (i : Nat)
  deriving DecidableEq, Repr

/-- Loop of tracer::begin_plugins: `for (u32 i = 0; i < sz; i++)`, invoking
plugin i's begin callback inside a try block; a raising callback is reported
to std::cerr and the loop continues. The second argument is the current
index; the first is recursion fuel bounding the remaining iterations
(begin_plugins passes the list length, which always suffices). -/
def beginPluginsGo (ps : List pluginM) : Nat → Nat → List PluginEvent
  | 0, _ => []
  | fuel + 1, i =>
    match ps.get? i with
    | some plg =>
      (PluginEvent.enterCalled i ::
        (if plg.beginRaises then [PluginEvent.errReported i] else [])) ++
        beginPluginsGo ps fuel (i + 1)
    | none => []

/-- Method tracer::begin_plugins (src/tracer.cpp:1007). -/
def begin_plugins (ps : List pluginM) : List PluginEvent :=
  beginPluginsGo ps ps.length 0

/-- Loop body of tracer::end_plugins: `for (i32 i = plugin_count() - 1;
i >= 0; i--)`, invoking plugin i's end callback inside a try block; a raising
callback is reported and the loop continues. The recursion argument `n + 1`
is the number of remaining iterations, the current index is `n`. -/
def endPluginsGo (ps : List pluginM) : Nat → List PluginEvent
  | 0 => []
  | n + 1 =>
    (match ps.get? n with
      | some plg =>
        PluginEvent.exitCalled n ::
          (if plg.endRaises then [PluginEvent.errReported n] else [])
      | none => []) ++
      endPluginsGo ps n

/-- Method tracer::end_plugins (src/tracer.cpp:1042): the loop starts at
`plugin_count() - 1` computed in u32 and stored into an i32, so an empty
plugin list skips the loop. -/
def end_plugins (ps : List pluginM) : List PluginEvent :=
  let i0 := i32ofU32 ((ps.length + u32Mod - 1) % u32Mod)
  if i0 < 0 then [] else endPluginsGo ps (i0.toNat + 1)

/-- Projection of the enter-callback invocations out of an event sequence. -/
def enterIdxs (evs : List PluginEvent) : List Nat :=
  evs.filterMap (fun e => match e with | PluginEvent.enterCalled i => some i | _ => none)

/-- Projection of the exit-callback invocations out of an event sequence. -/
def exitIdxs (evs : List PluginEvent) : List Nat :=
  evs.filterMap (fun e => match e with | PluginEvent.exitCalled i => some i | _ => none)

/-- Projection of the error reports out of an event sequence. -/
def reportedIdxs (evs : List PluginEvent) : List Nat :=
  evs.filterMap (fun e => match e with | PluginEvent.errReported i => some i | _ => none)

/-! The instrumentation hooks (src/tracer.cpp:38 and src/tracer.cpp:91). -/

/-- The tracer singleton state relevant to the hooks: the registered plugins
and the process handle (a nullable pointer). -/
structure tracerSt where
  m_plugins : List pluginM
  m_proc : Option process
  deriving DecidableEq, Repr

/-- Method tracer::interface (src/tracer.cpp:475): NULL while the singleton,
its process handle, its module list or its symbol pool is not yet set up. -/
def tracerInterface : Option tracerSt → Option tracerSt
  | none => none
  | some ifc =>
    match ifc.m_proc with
    | none => none
    | some proc =>
      if proc.module_count == 0 then none
      else if proc.symbol_count == 0 then none
      else some ifc

/-- C++ exception kinds the hooks can observe from the locked section: the
library's own instrument::exception and any std::exception (std::bad_alloc
from frame or thread allocation included). Both hook catch clauses cover
exactly these. -/
inductive CxxErr where
  | instrumentExc (msg : String)
  | stdExc (what : String)
  deriving DecidableEq, Repr

/-- Observable outcome of one hook invocation: the plugin events that were
dispatched, whether the hook itself streamed an error to std::cerr, and the
status passed to exit() when the hook terminated the process. -/
structure HookRes where
  pluginEvents : List PluginEvent
  errPrinted : Bool
  exitCode : Option Nat
  deriving DecidableEq, Repr

/-- Registry effect of the locked section of the enter hook:
`proc()->current_thread()->called(addr, site)` — find or create the current
thread object, then apply thread::called to it in place. -/
def enterLocked (uncaught : Bool) (self addr site : Nat) (p : process) : process :=
  let q := p.current_thread_reg self
  { q with
      m_threads := q.m_threads.map
        (fun t => if t.m_handle == self then t.called uncaught addr site none else t) }

/-- Registry effect of the locked section of the exit hook:
`proc()->current_thread()->returned()`. -/
def exitLocked (uncaught : Bool) (self : Nat) (p : process) : process :=
  let q := p.current_thread_reg self
  { q with
      m_threads := q.m_threads.map
        (fun t => if t.m_handle == self then t.returned uncaught else t) }

/-- Hook __cyg_profile_func_enter (src/tracer.cpp:38): pre-init guard through
tracer::interface, plugin fan-out, then the locked section in a try block.
`alloc` abstracts a heap allocation failure (or other C++ error) raised by
the locked section: `some e` makes the try block raise `e` before any state
change, upon which the hook streams the error to std::cerr and calls
exit(EXIT_FAILURE). The returned state is the (possibly updated) singleton. -/
def cyg_profile_func_enter (s_iface : Option tracerSt) (alloc : Option CxxErr)
    (uncaught : Bool) (self this_fn call_site : Nat) : Option tracerSt × HookRes :=
  match tracerInterface s_iface with
  | none => (s_iface, { pluginEvents := [], errPrinted := false, exitCode := none })
  | some ifc =>
    let evs := begin_plugins ifc.m_plugins
    match alloc with
    | some _ =>
      (s_iface, { pluginEvents := evs, errPrinted := true, exitCode := some EXIT_FAILURE })
    | none =>
      let proc1 := (ifc.m_proc.map (enterLocked uncaught self this_fn call_site))
      (some { ifc with m_proc := proc1 },
        { pluginEvents := evs, errPrinted := false, exitCode := none })

/-- Hook __cyg_profile_func_exit (src/tracer.cpp:91): same structure with the
reverse plugin fan-out and thread::returned in the locked section. -/
def cyg_profile_func_exit (s_iface : Option tracerSt) (alloc : Option CxxErr)
    (uncaught : Bool) (self _this_fn _call_site : Nat) : Option tracerSt × HookRes :=
  match tracerInterface s_iface with
  | none => (s_iface, { pluginEvents := [], errPrinted := false, exitCode := none })
  | some ifc =>
    let evs := end_plugins ifc.m_plugins
    match alloc with
    | some _ =>
      (s_iface, { pluginEvents := evs, errPrinted := true, exitCode := some EXIT_FAILURE })
    | none =>
      let proc1 := (ifc.m_proc.map (exitLocked uncaught self))
      (some { ifc with m_proc := proc1 },
        { pluginEvents := evs, errPrinted := false, exitCode := none })

/-! DSO discovery and filtering (src/tracer.cpp:278). -/

/-- The dl_phdr_info fields tracer::on_dso_load consults: absolute path, load
address, segment count and the virtual address of the first segment. -/
structure dl_phdr_info where
  dlpi_name : String
  dlpi_addr : Nat
  dlpi_phnum : Nat
  dlpi_phdr0_vaddr : Nat
  deriving DecidableEq, Repr

/-- Callback tracer::on_dso_load (src/tracer.cpp:278). `rmatch` abstracts
POSIX extended regex matching of a path against a pattern
(string::match / regexec). The result is the module added to the process —
path and load base — or `none` when the DSO is skipped (empty path, zero
segments, or filtered out); every failure is caught internally and 0 is
returned to the iterator either way. -/
def on_dso_load (rmatch : String → String → Bool) (libs : Option (List String))
    (dso : dl_phdr_info) : Option (String × Nat) :=
  if dso.dlpi_name.length = 0 then none
  else if dso.dlpi_phnum = 0 then none
  else
    let found : Bool :=
      match libs with
      | some filters => filters.any (fun flt => rmatch dso.dlpi_name flt)
      | none => true
    if found = false then none
    else some (dso.dlpi_name, (dso.dlpi_addr + dso.dlpi_phdr0_vaddr) % u64Mod)

/-- Helper of getenvChain: split a character sequence at ':' separators; the
second argument accumulates the current token in reverse. -/
def splitColonAux : List Char → List Char → List (List Char)
  | [], acc => [acc.reverse]
  | c :: rest, acc =>
    if c = ':' then acc.reverse :: splitColonAux rest []
    else splitColonAux rest (c :: acc)

/-- Modelled from the spec: util::getenv exists in this revision of
src/util.cpp only as commented-out code (lines 117-141), while
tracer::__on_lib_load still calls it to parse INSTRUMENT_LIBS. Per the spec:
an unset variable yields no chain (NULL, include all DSOs); a set variable is
split on ':' into a sequence of patterns — empty tokens are dropped, so a
set-but-empty value yields an empty chain (include none). `envValue` is the
variable's state in the process environment. -/
def getenvChain (envValue : Option String) : Option (List String) :=
  match envValue with
  | none => none
  | some v =>
    some (((splitColonAux v.toList []).map (fun cs => String.mk cs)).filter
      (fun s => s.length != 0))

/-! Theorems. Each claim of the specification gets exactly one main theorem;
corrected claims additionally get a closed counterexample refuting the claim
as stated at a concrete input. -/

/-- Claim C4: for every thread state on which called(callee, call_site, name)
is invoked, if an uncaught exception is currently propagating, lag is
decremented by one and no frame is pushed (stack and status untouched);
otherwise a new frame with the callee, call site and name is pushed onto the
stack and the status is set to Started. -/
theorem C4_called_contract (t : thread) (addr site : Nat) (nm : Option String) :
    ((t.called true addr site nm).m_lag = t.m_lag - 1 ∧
      (t.called true addr site nm).m_stack = t.m_stack ∧
      (t.called true addr site nm).m_status = t.m_status) ∧
    ((t.called false addr site nm).m_stack =
        { m_addr := addr, m_site := site, m_name := nm } :: t.m_stack ∧
      (t.called false addr site nm).m_status = THREAD_START ∧
      (t.called false addr site nm).m_lag = t.m_lag) := by
  simp [thread.called]

/-- Claim C1, counterexample: thread::returned never sets the status to
THREAD_EXIT. A thread in status Started whose single-frame stack empties on
return keeps status Started, though the claim requires Exited; indeed
THREAD_EXIT is assigned nowhere in the sources. -/
theorem C1_counterexample :
    (thread.returned false
        { m_handle := 7, m_lag := 0, m_name := none,
          m_stack := [{ m_addr := 1, m_site := 2, m_name := none }],
          m_status := THREAD_START }).m_stack = [] ∧
    is_thread_started THREAD_START = true ∧
    ¬ (thread.returned false
        { m_handle := 7, m_lag := 0, m_name := none,
          m_stack := [{ m_addr := 1, m_site := 2, m_name := none }],
          m_status := THREAD_START }).m_status = THREAD_EXIT := by
  decide

/-- Claim C1, amended: on returned(), if an uncaught exception is propagating
the lag is incremented by one and the stack is not popped; otherwise the top
frame is popped (a silent no-op on an empty stack). In both branches every
other field — the status included — is left unchanged; the status is never
set to Exited. -/
theorem C1_returned_contract (t : thread) :
    ((t.returned true).m_lag = t.m_lag + 1 ∧
      (t.returned true).m_stack = t.m_stack ∧
      (t.returned true).m_status = t.m_status) ∧
    ((t.returned false).m_stack = stackPop t.m_stack ∧
      (t.returned false).m_lag = t.m_lag ∧
      (t.returned false).m_status = t.m_status) := by
  simp [thread.returned]

/-- Claim C10: tracer::trace(string&, pthread_t) on a handle for which no
thread is registered returns normally, raises no error, and appends nothing
to the destination string. -/
theorem C10_trace_unknown_id (res : String → Nat → Option String) (wu : Bool)
    (p : process) (id : Nat) (h : ∀ t ∈ p.m_threads, t.m_handle ≠ id) :
    traceById res wu p id = (none, [], none) := by
  have hfind : p.get_thread id = none := by
    rw [process.get_thread, List.find?_eq_none]
    intro t ht
    simpa [thread.is] using h t ht
  simp [traceById, hfind]

/-- Claim C10, witness: a registry holding only the thread with handle 5,
traced for handle 9. -/
theorem C10_witness :
    traceById (fun _ _ => none) false
      { m_pid := 1, m_symtabs := [], m_threads := [thread.mkAnon 5] } 9 =
      (none, [], none) :=
  C10_trace_unknown_id (fun _ _ => none) false
    { m_pid := 1, m_symtabs := [], m_threads := [thread.mkAnon 5] } 9 (by decide)

/-- Claim C5: during DSO discovery, a loaded shared object with a non-empty
path and at least one segment has its symbol table loaded exactly when the
INSTRUMENT_LIBS chain is absent (variable unset) or at least one of the
chain's patterns matches the object's path; in particular a present-but-empty
chain loads none. -/
theorem C5_dso_filter (rmatch : String → String → Bool) (env : Option String)
    (dso : dl_phdr_info) (hpath : dso.dlpi_name.length ≠ 0)
    (hseg : dso.dlpi_phnum ≠ 0) :
    (getenvChain env = none → (on_dso_load rmatch (getenvChain env) dso).isSome) ∧
    (∀ fs, getenvChain env = some fs →
      ((on_dso_load rmatch (getenvChain env) dso).isSome ↔
        ∃ flt ∈ fs, rmatch dso.dlpi_name flt = true)) ∧
    (getenvChain env = some [] → on_dso_load rmatch (getenvChain env) dso = none) := by
  refine ⟨?_, ?_, ?_⟩
  · intro hnone
    rw [hnone]
    simp [on_dso_load, hpath, hseg]
  · intro fs hsome
    rw [hsome]
    simp [on_dso_load, hpath, hseg, List.any_eq_true]
  · intro hemp
    rw [hemp]
    simp [on_dso_load, hpath, hseg]

/-- Claim C5, witness: with INSTRUMENT_LIBS set to "A:B" and literal string
matching, the object at path "A" with one segment is loaded, and with the
variable set but empty it is not. -/
theorem C5_witness :
    (on_dso_load (fun pth flt => pth == flt) (getenvChain (some "A:B"))
        { dlpi_name := "A", dlpi_addr := 0, dlpi_phnum := 1,
          dlpi_phdr0_vaddr := 0 }).isSome ∧
    on_dso_load (fun pth flt => pth == flt) (getenvChain (some ""))
        { dlpi_name := "A", dlpi_addr := 0, dlpi_phnum := 1,
          dlpi_phdr0_vaddr := 0 } = none := by
  constructor
  · exact ((C5_dso_filter (fun pth flt => pth == flt) (some "A:B")
      { dlpi_name := "A", dlpi_addr := 0, dlpi_phnum := 1, dlpi_phdr0_vaddr := 0 }
      (by decide) (by decide)).2.1 ["A", "B"] (by decide)).mpr (by decide)
  · exact (C5_dso_filter (fun pth flt => pth == flt) (some "")
      { dlpi_name := "A", dlpi_addr := 0, dlpi_phnum := 1, dlpi_phdr0_vaddr := 0 }
      (by decide) (by decide)).2.2 (by decide)

/-- Claim C7: once the pre-initialization guard is passed, an error raised by
either instrumentation hook's locked section is printed to the standard error
stream and the process terminates through exit with the non-zero status
EXIT_FAILURE; the hook does not return normally. -/
theorem C7_hook_fatal (s_iface : Option tracerSt) (e : CxxErr) (uncaught : Bool)
    (self fn site : Nat) (h : tracerInterface s_iface ≠ none) :
    ((cyg_profile_func_enter s_iface (some e) uncaught self fn site).2.errPrinted = true ∧
      (cyg_profile_func_enter s_iface (some e) uncaught self fn site).2.exitCode =
        some EXIT_FAILURE) ∧
    ((cyg_profile_func_exit s_iface (some e) uncaught self fn site).2.errPrinted = true ∧
      (cyg_profile_func_exit s_iface (some e) uncaught self fn site).2.exitCode =
        some EXIT_FAILURE) ∧
    EXIT_FAILURE ≠ 0 := by
  cases hifc : tracerInterface s_iface with
  | none => exact absurd hifc h
  | some ifc =>
    refine ⟨?_, ?_, by decide⟩
    · simp [cyg_profile_func_enter, hifc]
    · simp [cyg_profile_func_exit, hifc]

/-- Claim C7, witness: a fully initialized singleton (one module, one symbol,
no plugins) whose locked section raises std::bad_alloc. -/
theorem C7_witness :
    ((cyg_profile_func_enter (some ⟨[], some ⟨1, [⟨"a", 0, [⟨1, some "f"⟩]⟩], []⟩⟩)
        (some (CxxErr.stdExc "bad_alloc")) false 7 1 2).2.errPrinted = true ∧
      (cyg_profile_func_enter (some ⟨[], some ⟨1, [⟨"a", 0, [⟨1, some "f"⟩]⟩], []⟩⟩)
        (some (CxxErr.stdExc "bad_alloc")) false 7 1 2).2.exitCode = some EXIT_FAILURE) ∧
    ((cyg_profile_func_exit (some ⟨[], some ⟨1, [⟨"a", 0, [⟨1, some "f"⟩]⟩], []⟩⟩)
        (some (CxxErr.stdExc "bad_alloc")) false 7 1 2).2.errPrinted = true ∧
      (cyg_profile_func_exit (some ⟨[], some ⟨1, [⟨"a", 0, [⟨1, some "f"⟩]⟩], []⟩⟩)
        (some (CxxErr.stdExc "bad_alloc")) false 7 1 2).2.exitCode = some EXIT_FAILURE) ∧
    EXIT_FAILURE ≠ 0 :=
  C7_hook_fatal (some ⟨[], some ⟨1, [⟨"a", 0, [⟨1, some "f"⟩]⟩], []⟩⟩)
    (CxxErr.stdExc "bad_alloc") false 7 1 2 (by decide)

/-! Lemmas about the frame rendering loop and unwinding, serving claims C2,
C3 and C9. -/

/-- Lemma: the frame rendering loop neither changes the thread's lag nor its
call depth, and every lag value it records at a frame rendering point is the
lag the thread had when rendering started. -/
theorem traceFramesGo_lag (res : String → Nat → Option String) (wu : Bool)
    (p : process) : ∀ (n : Nat) (t : thread),
    (traceFramesGo res wu p n t).thr.m_lag = t.m_lag ∧
    (traceFramesGo res wu p n t).thr.call_depth = t.call_depth ∧
    ∀ x ∈ (traceFramesGo res wu p n t).lags, x = t.m_lag := by
  intro n
  induction n with
  | zero => intro t; simp [traceFramesGo]
  | succ n ih =>
    intro t
    rw [traceFramesGo]
    cases hbt : t.backtrace n with
    | none => simp
    | some cur =>
      simp only
      set nmOpt : Option String :=
        (match cur.m_name with
          | some s => some s
          | none => p.lookup cur.m_addr) with hnm
      have hstep : ∀ (t1 : thread), t1.m_lag = t.m_lag → t1.call_depth = t.call_depth →
          (traceFramesGo res wu p n t1).thr.m_lag = t.m_lag ∧
          (traceFramesGo res wu p n t1).thr.call_depth = t.call_depth ∧
          ∀ x ∈ t.m_lag :: (traceFramesGo res wu p n t1).lags, x = t.m_lag := by
        intro t1 h1 h2
        refine ⟨(ih t1).1.trans h1, (ih t1).2.1.trans h2, ?_⟩
        intro x hx
        rcases List.mem_cons.mp hx with h | h
        · exact h
        · exact ((ih t1).2.2 x h).trans h1
      cases hnn : nmOpt with
      | some nm =>
        simp only
        have hl : (t.cacheName n cur nm).m_lag = t.m_lag := rfl
        have hd : (t.cacheName n cur nm).call_depth = t.call_depth := by
          simp [thread.cacheName, thread.call_depth]
        by_cases hp : n + 1 < (t.cacheName n cur nm).call_depth
        · simp only [hp, if_true]
          cases hbt2 : (t.cacheName n cur nm).backtrace (n + 1) with
          | none => simpa using ⟨hl, hd⟩
          | some caller => simpa using hstep _ hl hd
        · simp only [hp, if_false]
          simpa using hstep _ hl hd
      | none =>
        simp only
        by_cases hp : n + 1 < t.call_depth
        · simp only [hp, if_true]
          cases hbt2 : t.backtrace (n + 1) with
          | none => simp
          | some caller => simpa using hstep t rfl rfl
        · simp only [hp, if_false]
          simpa using hstep t rfl rfl

/-- Lemma: the same invariances for the loop entry wrapper. -/
theorem traceFrames_lag (res : String → Nat → Option String) (wu : Bool)
    (p : process) (i0 : Int) (t : thread) :
    (traceFrames res wu p i0 t).thr.m_lag = t.m_lag ∧
    ∀ x ∈ (traceFrames res wu p i0 t).lags, x = t.m_lag := by
  rw [traceFrames]
  by_cases h : i0 < 0
  · simp [h]
  · simp only [h, if_false]
    exact ⟨(traceFramesGo_lag res wu p _ t).1, (traceFramesGo_lag res wu p _ t).2.2⟩

/-- Lemma: renderThread keeps the loop's thread state and recorded lags. -/
theorem renderThread_lag (res : String → Nat → Option String) (wu : Bool)
    (p : process) (i0 : Int) (t : thread) :
    (renderThread res wu p i0 t).thr.m_lag = t.m_lag ∧
    ∀ x ∈ (renderThread res wu p i0 t).lags, x = t.m_lag := by
  rw [renderThread]
  cases herr : (traceFrames res wu p i0 t).err with
  | none => exact ⟨(traceFrames_lag res wu p i0 t).1, (traceFrames_lag res wu p i0 t).2⟩
  | some e => exact ⟨(traceFrames_lag res wu p i0 t).1, (traceFrames_lag res wu p i0 t).2⟩

/-- Lemma: the unwind loop entered with a lag equal to its fuel drives the
lag to zero. -/
theorem unwindLoop_lag : ∀ (n : Nat) (t : thread), t.m_lag = (n : Int) →
    (unwindLoop n t).m_lag = 0 := by
  intro n
  induction n with
  | zero => intro t h; simpa [unwindLoop] using h
  | succ n ih =>
    intro t h
    rw [unwindLoop]
    apply ih
    simp [h]

/-- Lemma: thread::unwind leaves a non-negative lag at exactly zero. -/
theorem unwind_lag_of_nonneg (t : thread) (h : 0 ≤ t.m_lag) :
    t.unwind.m_lag = 0 :=
  unwindLoop_lag t.m_lag.toNat t (Int.toNat_of_nonneg h).symm

/-- Claim C2, counterexample: in the current-thread trace the frame loop runs
before any unwinding. On a thread with lag 1 and two stacked frames both
frame rendering points observe lag 1, not 0, so unwind() cannot have run
before the iteration. -/
theorem C2_counterexample :
    (traceCurrent (fun _ _ => none) false
        { m_pid := 1, m_symtabs := [], m_threads := [] }
        { m_handle := 8, m_lag := 1, m_name := none,
          m_stack := [{ m_addr := 3, m_site := 99, m_name := none },
            { m_addr := 2, m_site := 98, m_name := none }],
          m_status := THREAD_START }).lags = [1, 1] ∧
    ¬ ((1 : Int) = 0) := by
  decide

/-- Claim C2, amended: in the current-thread trace variant,
ThreadState.unwind() is invoked after the frame iteration completes (or in
the error path), not before it: every frame rendering point observes the
pre-trace lag, and only once trace finishes does the lag equal zero
(whenever it was non-negative to begin with, the invariant at every
rendering request). -/
theorem C2_unwind_after_iteration (res : String → Nat → Option String)
    (wu : Bool) (p : process) (t : thread) (h : 0 ≤ t.m_lag) :
    (∀ x ∈ (traceCurrent res wu p t).lags, x = t.m_lag) ∧
    (traceCurrent res wu p t).thr.m_lag = 0 := by
  rw [traceCurrent]
  refine ⟨(renderThread_lag res wu p t.m_lag t).2, ?_⟩
  apply unwind_lag_of_nonneg
  rw [(renderThread_lag res wu p t.m_lag t).1]
  exact h

/-- Claim C2, witness: the concrete thread of the counterexample, whose two
rendering points both observe the pre-trace lag 1, with lag 0 afterwards. -/
theorem C2_witness :
    (∀ x ∈ (traceCurrent (fun _ _ => none) false
        { m_pid := 1, m_symtabs := [], m_threads := [] }
        { m_handle := 8, m_lag := 1, m_name := none,
          m_stack := [{ m_addr := 3, m_site := 99, m_name := none },
            { m_addr := 2, m_site := 98, m_name := none }],
          m_status := THREAD_START }).lags, x = 1) ∧
    (traceCurrent (fun _ _ => none) false
        { m_pid := 1, m_symtabs := [], m_threads := [] }
        { m_handle := 8, m_lag := 1, m_name := none,
          m_stack := [{ m_addr := 3, m_site := 99, m_name := none },
            { m_addr := 2, m_site := 98, m_name := none }],
          m_status := THREAD_START }).thr.m_lag = 0 :=
  C2_unwind_after_iteration (fun _ _ => none) false
    { m_pid := 1, m_symtabs := [], m_threads := [] }
    { m_handle := 8, m_lag := 1, m_name := none,
      m_stack := [{ m_addr := 3, m_site := 99, m_name := none },
        { m_addr := 2, m_site := 98, m_name := none }],
      m_status := THREAD_START }
    (by decide)

/-- Claim C9, counterexample: the current-thread trace variant on a thread
with an empty stack and zero lag does not produce header plus closing brace;
its frame loop still enters one iteration (index 0 = lag) and the peek at
offset 0 of the empty stack raises the out-of-bounds error, after only the
header reached the destination. -/
theorem C9_counterexample :
    (traceCurrent (fun _ _ => none) true
        { m_pid := 1, m_symtabs := [], m_threads := [] }
        { m_handle := 7, m_lag := 0, m_name := none, m_stack := [],
          m_status := THREAD_START }).err = some TErr.stackBounds ∧
    (traceCurrent (fun _ _ => none) true
        { m_pid := 1, m_symtabs := [], m_threads := [] }
        { m_handle := 7, m_lag := 0, m_name := none, m_stack := [],
          m_status := THREAD_START }).chunks = [Chunk.header "anonymous" 7] := by
  decide

/-- Claim C9, amended: tracing a thread whose simulated stack is empty and
whose lag is zero produces exactly the header line and the closing brace
line, with no frame lines and no error, in the by-handle variant; the
current-thread variant instead appends only the header and raises the
out-of-bounds error from its first peek of the empty stack. -/
theorem C9_empty_stack_trace (res : String → Nat → Option String) (wu : Bool)
    (p : process) (t : thread) (hstack : t.m_stack = []) (hlag : t.m_lag = 0) :
    ((traceOfThread res wu p t).chunks =
        [Chunk.header (nameOrAnon t.m_name) t.m_handle, Chunk.closeBrace] ∧
      (traceOfThread res wu p t).err = none) ∧
    ((traceCurrent res wu p t).chunks = [Chunk.header (nameOrAnon t.m_name) t.m_handle] ∧
      (traceCurrent res wu p t).err = some TErr.stackBounds) := by
  have hd : t.call_depth = 0 := by simp [thread.call_depth, hstack]
  constructor
  · rw [traceOfThread, hd]
    have hi : i32ofU32 ((0 + u32Mod - 1) % u32Mod) = -1 := by decide
    rw [hi, renderThread]
    simp [traceFrames]
  · rw [traceCurrent, renderThread, hlag]
    have hloop : traceFrames res wu p 0 t =
        { thr := t, chunks := [], lags := [], err := some TErr.stackBounds } := by
      rw [traceFrames]
      simp [traceFramesGo, thread.backtrace, hstack]
    rw [hloop]
    simp

/-- Claim C9, witness: a named thread with empty stack and zero lag, traced
by handle (header plus closing brace) and as current thread (error). -/
theorem C9_witness :
    ((traceOfThread (fun _ _ => none) false
        { m_pid := 1, m_symtabs := [], m_threads := [] }
        { m_handle := 3, m_lag := 0, m_name := some "X", m_stack := [],
          m_status := THREAD_INIT }).chunks =
        [Chunk.header (nameOrAnon (some "X")) 3, Chunk.closeBrace] ∧
      (traceOfThread (fun _ _ => none) false
        { m_pid := 1, m_symtabs := [], m_threads := [] }
        { m_handle := 3, m_lag := 0, m_name := some "X", m_stack := [],
          m_status := THREAD_INIT }).err = none) ∧
    ((traceCurrent (fun _ _ => none) false
        { m_pid := 1, m_symtabs := [], m_threads := [] }
        { m_handle := 3, m_lag := 0, m_name := some "X", m_stack := [],
          m_status := THREAD_INIT }).chunks = [Chunk.header (nameOrAnon (some "X")) 3] ∧
      (traceCurrent (fun _ _ => none) false
        { m_pid := 1, m_symtabs := [], m_threads := [] }
        { m_handle := 3, m_lag := 0, m_name := some "X", m_stack := [],
          m_status := THREAD_INIT }).err = some TErr.stackBounds) :=
  C9_empty_stack_trace (fun _ _ => none) false
    { m_pid := 1, m_symtabs := [], m_threads := [] }
    { m_handle := 3, m_lag := 0, m_name := some "X", m_stack := [],
      m_status := THREAD_INIT }
    (by decide) (by decide)

/-- Lemma: addr2line contributes no frame name line. -/
theorem atNames_addr2line (res : String → Nat → Option String)
    (path : Option String) (a : Nat) : atNames (addr2line res path a) = [] := by
  cases path with
  | none => simp [addr2line, atNames]
  | some q =>
    cases h : res q a with
    | none => simp [addr2line, atNames, h]
    | some buf =>
      by_cases hb : buf = "??:0" <;> simp [addr2line, atNames, h, hb]

/-- Lemma: overwriting position n of a list does not change its first n
elements. -/
theorem take_set_self {α : Type} (l : List α) (n : Nat) (x : α) :
    (l.set n x).take n = l.take n := by
  rw [List.set_take]
  exact List.set_eq_of_length_le (by simp)

/-- Lemma: frame name projection distributes over append. -/
theorem atNames_append (a b : List Chunk) : atNames (a ++ b) = atNames a ++ atNames b :=
  List.filterMap_append a b _

/-- Lemma: a name chunk projects to its name. -/
theorem atNames_single (s : String) : atNames [Chunk.atName s] = [s] := rfl

/-- Lemma: a CRLF chunk projects to nothing. -/
theorem atNames_crlf : atNames [Chunk.crlf] = [] := rfl

/-- Lemma: an UNRESOLVED chunk projects to nothing. -/
theorem atNames_unresolved : atNames [Chunk.atUnresolved] = [] := rfl

/-- Lemma: the empty chunk sequence projects to nothing. -/
theorem atNames_nil : atNames [] = [] := rfl

/-- Lemma: the frame rendering loop entered with at most call_depth pending
indices finishes without error, and the frame name lines it appends are the
resolved names of the first n frames of the stack in order of decreasing
offset — that is, of the reversed stack prefix. -/
theorem traceFramesGo_atNames (res : String → Nat → Option String) (wu : Bool)
    (p : process) : ∀ (n : Nat) (t : thread), n ≤ t.call_depth →
    (traceFramesGo res wu p n t).err = none ∧
    atNames (traceFramesGo res wu p n t).chunks =
      (t.m_stack.take n).reverse.filterMap (resolveName p) := by
  intro n
  induction n with
  | zero => intro t h; simp [traceFramesGo, atNames]
  | succ n ih =>
    intro t h
    have hn : n < t.m_stack.length := h
    have hbt : t.backtrace n = some (t.m_stack.get ⟨n, hn⟩) := List.get?_eq_get hn
    set cur := t.m_stack.get ⟨n, hn⟩ with hcurdef
    have hrhs : (t.m_stack.take (n + 1)).reverse.filterMap (resolveName p) =
        (match resolveName p cur with | some nm => [nm] | none => []) ++
          (t.m_stack.take n).reverse.filterMap (resolveName p) := by
      have htake : t.m_stack.take (n + 1) = t.m_stack.take n ++ [cur] := by
        rw [List.take_succ, List.getElem?_eq_getElem hn]
        simp [hcurdef]
      rw [htake, List.reverse_append, List.filterMap_append]
      cases hres0 : resolveName p cur <;> simp [List.filterMap_cons, hres0]
    have hstep : ∀ (t1 : thread), t1.call_depth = t.call_depth →
        t1.m_stack.take n = t.m_stack.take n →
        (traceFramesGo res wu p n t1).err = none ∧
        atNames (traceFramesGo res wu p n t1).chunks =
          (t.m_stack.take n).reverse.filterMap (resolveName p) := by
      intro t1 h1 h2
      have := ih t1 (by omega)
      exact ⟨this.1, by rw [this.2, h2]⟩
    rw [traceFramesGo, hbt]
    simp only
    cases hm : cur.m_name with
    | some s =>
      have hres : resolveName p cur = some s := by simp [resolveName, hm]
      simp only [hm]
      have hd1 : (t.cacheName n cur s).call_depth = t.call_depth := by
        simp [thread.cacheName, thread.call_depth, call.set_name]
      have ht1 : (t.cacheName n cur s).m_stack.take n = t.m_stack.take n :=
        take_set_self t.m_stack n (cur.set_name (some s))
      by_cases hp : n + 1 < (t.cacheName n cur s).call_depth
      · simp only [hp, if_true]
        have hn2 : n + 1 < (t.cacheName n cur s).m_stack.length := hp
        have hbt2 : (t.cacheName n cur s).backtrace (n + 1) =
            some ((t.cacheName n cur s).m_stack.get ⟨n + 1, hn2⟩) :=
          List.get?_eq_get hn2
        rw [hbt2]
        simp only
        refine ⟨(hstep _ hd1 ht1).1, ?_⟩
        rw [hrhs, hres, atNames_append, atNames_append, atNames_append,
          atNames_single, atNames_crlf, atNames_addr2line, (hstep _ hd1 ht1).2]
        simp
      · simp only [hp, if_false]
        refine ⟨(hstep _ hd1 ht1).1, ?_⟩
        rw [hrhs, hres, atNames_append, atNames_append,
          atNames_single, atNames_crlf, (hstep _ hd1 ht1).2]
        simp
    | none =>
      cases hlk : p.lookup cur.m_addr with
      | some s =>
        have hres : resolveName p cur = some s := by simp [resolveName, hm, hlk]
        simp only [hm, hlk]
        have hd1 : (t.cacheName n cur s).call_depth = t.call_depth := by
          simp [thread.cacheName, thread.call_depth, call.set_name]
        have ht1 : (t.cacheName n cur s).m_stack.take n = t.m_stack.take n :=
          take_set_self t.m_stack n (cur.set_name (some s))
        by_cases hp : n + 1 < (t.cacheName n cur s).call_depth
        · simp only [hp, if_true]
          have hn2 : n + 1 < (t.cacheName n cur s).m_stack.length := hp
          have hbt2 : (t.cacheName n cur s).backtrace (n + 1) =
              some ((t.cacheName n cur s).m_stack.get ⟨n + 1, hn2⟩) :=
            List.get?_eq_get hn2
          rw [hbt2]
          simp only
          refine ⟨(hstep _ hd1 ht1).1, ?_⟩
          rw [hrhs, hres, atNames_append, atNames_append, atNames_append,
            atNames_single, atNames_crlf, atNames_addr2line, (hstep _ hd1 ht1).2]
          simp
        · simp only [hp, if_false]
          refine ⟨(hstep _ hd1 ht1).1, ?_⟩
          rw [hrhs, hres, atNames_append, atNames_append,
            atNames_single, atNames_crlf, (hstep _ hd1 ht1).2]
          simp
      | none =>
        have hres : resolveName p cur = none := by simp [resolveName, hm, hlk]
        simp only [hm, hlk]
        by_cases hp : n + 1 < t.call_depth
        · simp only [hp, if_true]
          have hn2 : n + 1 < t.m_stack.length := hp
          have hbt2 : t.backtrace (n + 1) = some (t.m_stack.get ⟨n + 1, hn2⟩) :=
            List.get?_eq_get hn2
          rw [hbt2]
          simp only
          refine ⟨(hstep t rfl rfl).1, ?_⟩
          rw [hrhs, hres, atNames_append, atNames_append, atNames_append,
            atNames_crlf, atNames_addr2line, (hstep t rfl rfl).2]
          cases wu <;> simp [atNames_unresolved, atNames_nil]
        · simp only [hp, if_false]
          refine ⟨(hstep t rfl rfl).1, ?_⟩
          rw [hrhs, hres, atNames_append, atNames_append,
            atNames_crlf, (hstep t rfl rfl).2]
          cases wu <;> simp [atNames_unresolved, atNames_nil]

/-- Lemma: the by-handle loop start `call_depth() - 1`, computed in u32 and
reinterpreted as i32, equals depth - 1 whenever 1 ≤ depth ≤ 2^31. -/
theorem byHandleStart (d : Nat) (h1 : 1 ≤ d) (h2 : d ≤ 2147483648) :
    i32ofU32 ((d + u32Mod - 1) % u32Mod) = ((d - 1 : Nat) : Int) := by
  have hmod : (d + u32Mod - 1) % u32Mod = d - 1 := by unfold u32Mod; omega
  rw [i32ofU32, hmod]
  have h3 : (d - 1) % u32Mod = d - 1 := by unfold u32Mod; omega
  rw [h3, if_pos (by omega)]

/-- Claim C3, counterexample: pushing frames for f, then g, then h (so the
stack holds h at offset 0, g at 1, f at 2, each resolvable through the symbol
table) and rendering the thread by handle emits the body lines in the order
f, g, h — the bottom of the stack first — and not h, g, f as claimed. -/
theorem C3_counterexample :
    atNames (traceOfThread (fun _ _ => none) true
        ⟨42, [⟨"a.out", 0, [⟨1, some "f"⟩, ⟨2, some "g"⟩, ⟨3, some "h"⟩]⟩], []⟩
        ⟨7, 0, some "T", [⟨3, 99, none⟩, ⟨2, 98, none⟩, ⟨1, 0, none⟩],
          THREAD_START⟩).chunks = ["f", "g", "h"] ∧
    ["f", "g", "h"] ≠ ["h", "g", "f"] := by
  decide

/-- Claim C3, amended: for every thread with a non-empty simulated stack (of
any realistic depth, at most 2^31), the by-handle trace rendering finishes
without error and emits the frame name lines ordered from the bottom of the
stack (least recent call) to the top: after pushes of f, then g, then h, the
body lines name f first, then g, then h. The emitted sequence is exactly the
reversed stack filtered through name resolution. -/
theorem C3_frames_bottom_to_top (res : String → Nat → Option String) (wu : Bool)
    (p : process) (t : thread) (hne : t.m_stack ≠ [])
    (hsz : t.call_depth ≤ 2147483648) :
    (traceOfThread res wu p t).err = none ∧
    atNames (traceOfThread res wu p t).chunks =
      t.m_stack.reverse.filterMap (resolveName p) := by
  have h1 : 1 ≤ t.call_depth := List.length_pos.mpr hne
  rw [traceOfThread, byHandleStart t.call_depth h1 hsz, renderThread]
  have hnn : ¬ (((t.call_depth - 1 : Nat) : Int) < 0) :=
    not_lt.mpr (Int.natCast_nonneg _)
  rw [traceFrames, if_neg hnn]
  have htn : ((t.call_depth - 1 : Nat) : Int).toNat + 1 = t.call_depth := by omega
  rw [htn]
  have hmain := traceFramesGo_atNames res wu p t.call_depth t le_rfl
  rw [hmain.1]
  refine ⟨by simp, ?_⟩
  rw [show (t.m_stack.take t.call_depth) = t.m_stack from List.take_length t.m_stack]
    at hmain
  simpa [atNames, List.filterMap_append] using hmain.2

/-- Claim C3, witness: the f, g, h scenario of the counterexample satisfies
the amended ordering theorem. -/
theorem C3_witness :
    (traceOfThread (fun _ _ => none) true
        ⟨42, [⟨"a.out", 0, [⟨1, some "f"⟩, ⟨2, some "g"⟩, ⟨3, some "h"⟩]⟩], []⟩
        ⟨7, 0, some "T", [⟨3, 99, none⟩, ⟨2, 98, none⟩, ⟨1, 0, none⟩],
          THREAD_START⟩).err = none ∧
    atNames (traceOfThread (fun _ _ => none) true
        ⟨42, [⟨"a.out", 0, [⟨1, some "f"⟩, ⟨2, some "g"⟩, ⟨3, some "h"⟩]⟩], []⟩
        ⟨7, 0, some "T", [⟨3, 99, none⟩, ⟨2, 98, none⟩, ⟨1, 0, none⟩],
          THREAD_START⟩).chunks =
      ([⟨3, 99, none⟩, ⟨2, 98, none⟩, ⟨1, 0, none⟩] : List call).reverse.filterMap
        (resolveName
          ⟨42, [⟨"a.out", 0, [⟨1, some "f"⟩, ⟨2, some "g"⟩, ⟨3, some "h"⟩]⟩], []⟩) :=
  C3_frames_bottom_to_top (fun _ _ => none) true
    ⟨42, [⟨"a.out", 0, [⟨1, some "f"⟩, ⟨2, some "g"⟩, ⟨3, some "h"⟩]⟩], []⟩
    ⟨7, 0, some "T", [⟨3, 99, none⟩, ⟨2, 98, none⟩, ⟨1, 0, none⟩], THREAD_START⟩
    (by decide) (by decide)

/-- Lemma: the enter projection of an empty event sequence. -/
@[simp] theorem enterIdxs_nil : enterIdxs [] = [] := rfl

/-- Lemma: the enter projection keeps enter invocations. -/
@[simp] theorem enterIdxs_cons_enter (i : Nat) (l : List PluginEvent) :
    enterIdxs (PluginEvent.enterCalled i :: l) = i :: enterIdxs l := rfl

/-- Lemma: the enter projection drops exit invocations. -/
@[simp] theorem enterIdxs_cons_exit (i : Nat) (l : List PluginEvent) :
    enterIdxs (PluginEvent.exitCalled i :: l) = enterIdxs l := rfl

/-- Lemma: the enter projection drops error reports. -/
@[simp] theorem enterIdxs_cons_err (i : Nat) (l : List PluginEvent) :
    enterIdxs (PluginEvent.errReported i :: l) = enterIdxs l := rfl

/-- Lemma: the enter projection distributes over append. -/
@[simp] theorem enterIdxs_append (a b : List PluginEvent) :
    enterIdxs (a ++ b) = enterIdxs a ++ enterIdxs b := List.filterMap_append a b _

/-- Lemma: the exit projection of an empty event sequence. -/
@[simp] theorem exitIdxs_nil : exitIdxs [] = [] := rfl

/-- Lemma: the exit projection drops enter invocations. -/
@[simp] theorem exitIdxs_cons_enter (i : Nat) (l : List PluginEvent) :
    exitIdxs (PluginEvent.enterCalled i :: l) = exitIdxs l := rfl

/-- Lemma: the exit projection keeps exit invocations. -/
@[simp] theorem exitIdxs_cons_exit (i : Nat) (l : List PluginEvent) :
    exitIdxs (PluginEvent.exitCalled i :: l) = i :: exitIdxs l := rfl

/-- Lemma: the exit projection drops error reports. -/
@[simp] theorem exitIdxs_cons_err (i : Nat) (l : List PluginEvent) :
    exitIdxs (PluginEvent.errReported i :: l) = exitIdxs l := rfl

/-- Lemma: the exit projection distributes over append. -/
@[simp] theorem exitIdxs_append (a b : List PluginEvent) :
    exitIdxs (a ++ b) = exitIdxs a ++ exitIdxs b := List.filterMap_append a b _

/-- Lemma: the report projection of an empty event sequence. -/
@[simp] theorem reportedIdxs_nil : reportedIdxs [] = [] := rfl

/-- Lemma: the report projection drops enter invocations. -/
@[simp] theorem reportedIdxs_cons_enter (i : Nat) (l : List PluginEvent) :
    reportedIdxs (PluginEvent.enterCalled i :: l) = reportedIdxs l := rfl

/-- Lemma: the report projection drops exit invocations. -/
@[simp] theorem reportedIdxs_cons_exit (i : Nat) (l : List PluginEvent) :
    reportedIdxs (PluginEvent.exitCalled i :: l) = reportedIdxs l := rfl

/-- Lemma: the report projection keeps error reports. -/
@[simp] theorem reportedIdxs_cons_err (i : Nat) (l : List PluginEvent) :
    reportedIdxs (PluginEvent.errReported i :: l) = i :: reportedIdxs l := rfl

/-- Lemma: the report projection distributes over append. -/
@[simp] theorem reportedIdxs_append (a b : List PluginEvent) :
    reportedIdxs (a ++ b) = reportedIdxs a ++ reportedIdxs b := List.filterMap_append a b _

/-- Lemma: the begin_plugins loop, run from index i with enough fuel, invokes
exactly the enter callbacks of plugins i, i+1, ..., n-1 in that order, never
an exit callback, and reports exactly the raising ones among them, each right
after its invocation. -/
theorem beginPluginsGo_spec (ps : List pluginM) : ∀ (fuel i : Nat),
    ps.length - i ≤ fuel →
    enterIdxs (beginPluginsGo ps fuel i) = List.range' i (ps.length - i) ∧
    exitIdxs (beginPluginsGo ps fuel i) = [] ∧
    reportedIdxs (beginPluginsGo ps fuel i) =
      (List.range' i (ps.length - i)).filter
        (fun j => (ps.getD j ⟨false, false⟩).beginRaises) := by
  intro fuel
  induction fuel with
  | zero =>
    intro i hfi
    have h0 : ps.length - i = 0 := Nat.le_zero.mp hfi
    rw [h0]
    simp [beginPluginsGo]
  | succ fuel ih =>
    intro i hfi
    rw [beginPluginsGo]
    cases hg : ps.get? i with
    | none =>
      have hge : ps.length ≤ i := by
        by_contra hlt
        push_neg at hlt
        rw [List.get?_eq_get hlt] at hg
        exact Option.noConfusion hg
      have h0 : ps.length - i = 0 := by omega
      rw [h0]
      simp
    | some plg =>
      have hlt : i < ps.length := by
        by_contra hge
        push_neg at hge
        rw [List.get?_eq_none.mpr hge] at hg
        exact Option.noConfusion hg
      have hsucc : ps.length - i = (ps.length - (i + 1)) + 1 := by omega
      have hih := ih (i + 1) (by omega)
      have hgd : ps.getD i ⟨false, false⟩ = plg := by
        rw [List.getD_eq_getElem?_getD, ← List.get?_eq_getElem?, hg]
        rfl
      refine ⟨?_, ?_, ?_⟩
      · rw [hsucc, List.range'_succ]
        cases hr : plg.beginRaises <;> simp [hr, hih.1]
      · cases hr : plg.beginRaises <;> simp [hr, hih.2.1]
      · rw [hsucc, List.range'_succ, List.filter_cons, hgd]
        cases hr : plg.beginRaises <;> simp [hr, hih.2.2]

/-- Lemma: the end_plugins loop with n pending iterations invokes exactly the
exit callbacks of plugins n-1, n-2, ..., 0 in that order, never an enter
callback, and reports exactly the raising ones among them. -/
theorem endPluginsGo_spec (ps : List pluginM) : ∀ (n : Nat), n ≤ ps.length →
    exitIdxs (endPluginsGo ps n) = (List.range n).reverse ∧
    enterIdxs (endPluginsGo ps n) = [] ∧
    reportedIdxs (endPluginsGo ps n) =
      ((List.range n).reverse).filter
        (fun j => (ps.getD j ⟨false, false⟩).endRaises) := by
  intro n
  induction n with
  | zero => intro h; simp [endPluginsGo]
  | succ n ih =>
    intro h
    have hlt : n < ps.length := h
    have hg : ps.get? n = some ps[n] := by
      rw [List.get?_eq_getElem?]
      exact List.getElem?_eq_getElem hlt
    have hgd : ps.getD n ⟨false, false⟩ = ps[n] := by
      rw [List.getD_eq_getElem?_getD, List.getElem?_eq_getElem hlt]
      rfl
    have hih := ih (by omega)
    have hrev : (List.range (n + 1)).reverse = n :: (List.range n).reverse := by
      rw [List.range_succ, List.reverse_append]
      rfl
    rw [endPluginsGo, hg]
    refine ⟨?_, ?_, ?_⟩
    · rw [hrev]
      cases hr : ps[n].endRaises <;> simp [hr, hih.1]
    · cases hr : ps[n].endRaises <;> simp [hr, hih.2.1]
    · rw [hrev, List.filter_cons, hgd]
      cases hr : ps[n].endRaises <;> simp [hr, hih.2.2]

/-- Claim C6: for plugins P1..Pn registered in that order (any realistic
count, at most 2^31), one enter event invokes the plugin enter callbacks in
insertion order P1..Pn — every one of them, raising or not, so dispatch
continues past a raising callback — and one exit event invokes the exit
callbacks in reverse insertion order Pn..P1; the raising callbacks, and only
they, are caught and reported to the error sink, in dispatch order. -/
theorem C6_plugin_dispatch (ps : List pluginM) (h : ps.length ≤ 2147483648) :
    enterIdxs (begin_plugins ps) = List.range ps.length ∧
    exitIdxs (end_plugins ps) = (List.range ps.length).reverse ∧
    reportedIdxs (begin_plugins ps) =
      (List.range ps.length).filter
        (fun j => (ps.getD j ⟨false, false⟩).beginRaises) ∧
    reportedIdxs (end_plugins ps) =
      ((List.range ps.length).reverse).filter
        (fun j => (ps.getD j ⟨false, false⟩).endRaises) := by
  have hb := beginPluginsGo_spec ps ps.length 0 (by omega)
  have hrange : List.range' 0 (ps.length - 0) 1 = List.range ps.length := by
    rw [Nat.sub_zero, List.range_eq_range']
  refine ⟨?_, ?_, ?_, ?_⟩
  · rw [begin_plugins, hb.1, hrange]
  · rw [end_plugins]
    rcases Nat.eq_zero_or_pos ps.length with h0 | hpos
    · rw [h0]
      have : i32ofU32 ((0 + u32Mod - 1) % u32Mod) = -1 := by decide
      rw [this, if_pos (by decide)]
      simp [exitIdxs]
    · rw [byHandleStart ps.length hpos h,
        if_neg (not_lt.mpr (Int.natCast_nonneg _))]
      have htn : ((ps.length - 1 : Nat) : Int).toNat + 1 = ps.length := by omega
      rw [htn]
      exact (endPluginsGo_spec ps ps.length le_rfl).1
  · rw [begin_plugins, hb.2.2, hrange]
  · rw [end_plugins]
    rcases Nat.eq_zero_or_pos ps.length with h0 | hpos
    · rw [h0]
      have : i32ofU32 ((0 + u32Mod - 1) % u32Mod) = -1 := by decide
      rw [this, if_pos (by decide)]
      simp [reportedIdxs]
    · rw [byHandleStart ps.length hpos h,
        if_neg (not_lt.mpr (Int.natCast_nonneg _))]
      have htn : ((ps.length - 1 : Nat) : Int).toNat + 1 = ps.length := by omega
      rw [htn]
      exact (endPluginsGo_spec ps ps.length le_rfl).2.2

/-- Claim C6, witness: three plugins of which the second raises on enter and
the third raises on exit; enter dispatch visits 0, 1, 2, exit dispatch 2, 1,
0, and exactly the raisers are reported. -/
theorem C6_witness :
    enterIdxs (begin_plugins [⟨false, false⟩, ⟨true, false⟩, ⟨false, true⟩]) =
      List.range 3 ∧
    exitIdxs (end_plugins [⟨false, false⟩, ⟨true, false⟩, ⟨false, true⟩]) =
      (List.range 3).reverse ∧
    reportedIdxs (begin_plugins [⟨false, false⟩, ⟨true, false⟩, ⟨false, true⟩]) =
      (List.range 3).filter
        (fun j => (([⟨false, false⟩, ⟨true, false⟩, ⟨false, true⟩] : List pluginM).getD
          j ⟨false, false⟩).beginRaises) ∧
    reportedIdxs (end_plugins [⟨false, false⟩, ⟨true, false⟩, ⟨false, true⟩]) =
      ((List.range 3).reverse).filter
        (fun j => (([⟨false, false⟩, ⟨true, false⟩, ⟨false, true⟩] : List pluginM).getD
          j ⟨false, false⟩).endRaises) :=
  C6_plugin_dispatch [⟨false, false⟩, ⟨true, false⟩, ⟨false, true⟩] (by decide)

/-- Lemma: overwriting one in-bounds position of a list with a fresh value
yields a subpermutation of the list extended by that value. -/
theorem set_subperm_append_singleton {α : Type} :
    ∀ (A : List α) (i : Nat) (x : α), i < A.length →
    List.Subperm (A.set i x) (A ++ [x]) := by
  intro A
  induction A with
  | nil => intro i x h; simp at h
  | cons a A ih =>
    intro i x h
    cases i with
    | zero =>
      exact ⟨A ++ [x], List.perm_append_singleton x A,
        List.Sublist.cons a (List.Sublist.refl _)⟩
    | succ i =>
      have hi : i < A.length := by simpa using h
      rw [List.set_cons_succ, List.cons_append]
      exact (List.subperm_cons a).mpr (ih i x hi)

/-- Lemma: the unordered list removal (swap the last item into the gap) keeps
a subpermutation of the original list. -/
theorem removeUnordered_subperm (l : List Instrument.thread) (i : Nat) :
    List.Subperm (removeUnordered l i) l := by
  rw [removeUnordered]
  by_cases h1 : i < l.length
  · rw [if_pos h1]
    by_cases h2 : i + 1 = l.length
    · rw [if_pos h2]
      exact (List.dropLast_sublist l).subperm
    · rw [if_neg h2]
      have hne : l ≠ [] := by
        intro he
        rw [he] at h1
        simp at h1
      obtain ⟨x, hx⟩ : ∃ x, l.getLast? = some x :=
        ⟨l.getLast hne, List.getLast?_eq_getLast l hne⟩
      rw [hx]
      show List.Subperm ((l.set i x).dropLast) l
      have hl : l.dropLast ++ [x] = l :=
        List.dropLast_append_getLast? x (by simp [Option.mem_def, hx])
      have hi : i < l.dropLast.length := by
        rw [List.length_dropLast]
        omega
      have hset : l.set i x = l.dropLast.set i x ++ [x] := by
        conv_lhs => rw [← hl]
        rw [List.set_append, if_pos hi]
      rw [hset, List.dropLast_concat]
      conv_rhs => rw [← hl]
      exact set_subperm_append_singleton l.dropLast i x hi
  · rw [if_neg h1]

/-- Lemma: the zombie cleanup loop only ever removes threads, so its result
is a subpermutation of the initial list. -/
theorem zombieLoop_subperm : ∀ (fuel : Nat) (l : List Instrument.thread) (i : Nat),
    List.Subperm (zombieLoop fuel l i) l := by
  intro fuel
  induction fuel with
  | zero => intro l i; exact List.Subperm.refl l
  | succ fuel ih =>
    intro l i
    rw [zombieLoop]
    by_cases h : i < l.length
    · rw [dif_pos h]
      simp only
      by_cases hc : 0 < (l.get ⟨i, h⟩).call_depth
      · rw [if_pos hc]
        exact ih l (i + 1)
      · by_cases hs : (is_thread_started (l.get ⟨i, h⟩).m_status ||
            is_thread_finished (l.get ⟨i, h⟩).m_status) = true
        · rw [if_neg hc, if_pos hs]
          exact (ih _ i).trans (removeUnordered_subperm l i)
        · rw [if_neg hc, if_neg hs]
          exact ih l (i + 1)
    · rw [dif_neg h]

/-- Lemma: a subpermutation whose superlist maps to pairwise distinct values
also maps to pairwise distinct values. -/
theorem nodup_map_subperm {α β : Type} (f : α → β) {l1 l2 : List α}
    (h : List.Subperm l1 l2) (hn : (l2.map f).Nodup) : (l1.map f).Nodup := by
  obtain ⟨m, hperm, hsub⟩ := h
  exact (hperm.map f).nodup (List.Nodup.sublist (hsub.map f) hn)

/-- Lemma: appending a thread whose handle is registered for no current
thread keeps the handles pairwise distinct. -/
theorem nodup_handles_append (l : List Instrument.thread) (t : Instrument.thread)
    (hn : (l.map thread.m_handle).Nodup)
    (hf : ∀ u ∈ l, u.m_handle ≠ t.m_handle) :
    ((l ++ [t]).map thread.m_handle).Nodup := by
  rw [List.map_append]
  apply (List.perm_append_singleton t.m_handle (l.map thread.m_handle)).symm.nodup
  rw [List.nodup_cons]
  refine ⟨?_, hn⟩
  intro hmem
  obtain ⟨u, hu, he⟩ := List.mem_map.mp hmem
  exact hf u hu he

/-- Claim C8: in every reachable registry state no two registered threads
share the same handle; and register_thread, given a thread whose handle
duplicates a registered one, fails with AlreadyRegistered instead of
inserting it. -/
theorem C8_registry_handles (p : process) (hp : ReachP p) :
    (p.m_threads.map thread.m_handle).Nodup ∧
    ∀ t : thread, (∃ u ∈ p.m_threads, u.m_handle = t.m_handle) →
      p.register_thread t = Except.error RegErr.alreadyRegistered := by
  have hreg : ∀ (q : process) (t : thread),
      (∃ u ∈ q.m_threads, u.m_handle = t.m_handle) →
      q.register_thread t = Except.error RegErr.alreadyRegistered := by
    intro q t ht
    obtain ⟨u, hu, he⟩ := ht
    rw [process.register_thread, if_pos]
    rw [List.any_eq_true]
    exact ⟨u, hu, by simp [he]⟩
  refine ⟨?_, hreg p⟩
  induction hp with
  | init pid => simp [process.mkEmpty]
  | addMod st hr ih => simpa [process.add_module] using ih
  | @cur self p hr ih =>
    rw [process.current_thread_reg]
    by_cases hany : p.m_threads.any (fun t => t.m_handle == self)
    · rw [if_pos hany]
      exact ih
    · rw [if_neg hany]
      simp only
      apply nodup_handles_append _ _ ih
      intro u hu he
      apply hany
      rw [List.any_eq_true]
      exact ⟨u, hu, by simp [thread.mkAnon] at he ⊢; exact he⟩
  | @reg p q t hr hok ih =>
    rw [process.register_thread] at hok
    by_cases hany : p.m_threads.any (fun x => x.m_handle == t.m_handle)
    · rw [if_pos hany] at hok
      exact absurd hok (by simp)
    · rw [if_neg hany] at hok
      have hq : q = { p with m_threads := p.m_threads ++ [t] } :=
        (Except.ok.injEq _ _).mp hok.symm
      rw [hq]
      simp only
      apply nodup_handles_append _ _ ih
      intro u hu he
      apply hany
      rw [List.any_eq_true]
      exact ⟨u, hu, by simp [he]⟩
  | @cleanup id p hr ih =>
    rw [process.cleanup_thread]
    cases hidx : p.m_threads.findIdx? (fun t => t.is id) with
    | none => simpa [hidx] using ih
    | some i =>
      simp only [hidx]
      exact nodup_map_subperm _ (removeUnordered_subperm _ i) ih
  | zombies hr ih =>
    exact nodup_map_subperm _ (zombieLoop_subperm _ _ 0) ih
  | @forked id nm p hr hfresh ih =>
    rw [process.fork_thread]
    simp only
    apply nodup_handles_append _ _ ih
    intro u hu he
    exact hfresh u hu (by simpa [thread.mkNamed] using he)

/-- Claim C8, witness: from a fresh registry, current_thread for handle 5
registers one thread; registering a forked thread with the duplicate handle
5 then fails with AlreadyRegistered, and the handles stay pairwise distinct. -/
theorem C8_witness :
    ((((process.mkEmpty 1).current_thread_reg 5).m_threads.map
        thread.m_handle).Nodup) ∧
    ((process.mkEmpty 1).current_thread_reg 5).register_thread
        (thread.mkNamed 5 "worker") =
      Except.error RegErr.alreadyRegistered := by
  have hreach : ReachP ((process.mkEmpty 1).current_thread_reg 5) :=
    ReachP.cur 5 (ReachP.init 1)
  have h := C8_registry_handles ((process.mkEmpty 1).current_thread_reg 5) hreach
  exact ⟨h.1, h.2 (thread.mkNamed 5 "worker") (by decide)⟩

end Instrument
